import Mathlib

/-!
Verification development for the Embarcatech_37_IoT telemetry pipeline.

The repository is a small IoT pipeline:
  * `src/dados/data_ingestor.py` — an MQTT→PostgreSQL bridge: for each MQTT
    message it decodes the payload, parses it as a JSON object, extracts the
    keys `temperatura`, `umidade`, `luminosidade` (converting each to float),
    and inserts one row into the table via `inserir_leitura` (execute, commit,
    rollback on error, cursor closed in a `finally`).
  * `src/dados/main.py` — a single-value variant of the same bridge: the whole
    payload is converted to one float and inserted by its own `inserir_leitura`.
  * `src/dados/dashboard.py` — a Dash dashboard: `buscar_dados` reads the 200
    most recent rows (ORDER BY data_hora DESC LIMIT 200) and reverses them to
    chronological order, `detectar_anomalias` tags each row with ±1 via an
    Isolation Forest, `prever_proxima_temperatura` fits a least-squares line
    temperature-vs-index and evaluates it one step past the data, and
    `atualizar_componentes` renders placeholders when no data is available.

The embedding below models Python floats as rationals (`ℚ`), JSON objects as
association lists, the database connection as explicit transactional state
(committed rows plus a pending transaction), and the fallibility of the
database driver and of the off-the-shelf ML models as explicit oracles.
-/

namespace IoTPipeline

/-! ### JSON values as produced by `json.loads` -/

/-- A JSON value, as decoded by Python's `json.loads`.  Numbers are modelled
as rationals (the embedding of Python floats used throughout). -/
inductive JValue where
  | jnull
  | jbool (b : Bool)
  | jnum (q : ℚ)
  | jstr (s : String)
  | jarr (xs : List JValue)
  | jobj (fields : List (String × JValue))

/-- Python exceptions that can be raised inside the `try` block of
`on_message` in `data_ingestor.py`. -/
inductive PyErr where
  | jsonDecodeError
  | keyError (k : String)
  | valueError
  | typeError
deriving DecidableEq

/-- Decidable equality of fallible results, used to evaluate the embedding
on concrete payloads. -/
instance {ε α : Type} [DecidableEq ε] [DecidableEq α] :
    DecidableEq (Except ε α) := fun x y =>
  match x, y with
  | .ok a, .ok b =>
    if h : a = b then .isTrue (by rw [h]) else .isFalse (by simp [h])
  | .error e, .error f =>
    if h : e = f then .isTrue (by rw [h]) else .isFalse (by simp [h])
  | .ok _, .error _ => .isFalse (by simp)
  | .error _, .ok _ => .isFalse (by simp)

/-- Lookup in a Python dict built by `json.loads`: with duplicate keys the
last binding wins. -/
def lookupLast (fields : List (String × JValue)) (k : String) : Option JValue :=
  match fields with
  | [] => none
  | (k', v) :: rest =>
    match lookupLast rest k with
    | some w => some w
    | none => if k' = k then some v else none

/-- Python subscript `d[k]`: a `KeyError` on a dict missing the key, a
`TypeError` on any non-dict value. -/
def getItem (v : JValue) (k : String) : Except PyErr JValue :=
  match v with
  | .jobj fields =>
    match lookupLast fields k with
    | some w => .ok w
    | none => .error (.keyError k)
  | _ => .error .typeError

/-- Digit run of a decimal literal, folded to a natural number. -/
def digitsToNat (ds : List Char) : Nat :=
  ds.foldl (fun a c => a * 10 + (c.toNat - Char.toNat '0')) 0

/-- Parse the exponent part of a float literal (after the `e`/`E`). -/
def parseExp (cs : List Char) : Option ℤ :=
  match cs with
  | '+' :: rest => if rest ≠ [] ∧ rest.all Char.isDigit then some (digitsToNat rest) else none
  | '-' :: rest => if rest ≠ [] ∧ rest.all Char.isDigit then some (-(digitsToNat rest : ℤ)) else none
  | rest => if rest ≠ [] ∧ rest.all Char.isDigit then some (digitsToNat rest) else none

/-- Parse an unsigned decimal float literal: digits, an optional fractional
part, an optional exponent.  At least one digit must be present. -/
def parseUnsigned (cs : List Char) : Option ℚ :=
  let (intDs, rest₁) := cs.span Char.isDigit
  let (fracDs, rest₂) :=
    match rest₁ with
    | '.' :: tail => tail.span Char.isDigit
    | _ => ([], rest₁)
  let rest₃ := if rest₁.head? = some '.' then rest₂ else rest₁
  if intDs = [] ∧ fracDs = [] then none
  else
    let mantissa : ℚ :=
      (digitsToNat intDs : ℚ) + (digitsToNat fracDs : ℚ) / ((10 : ℚ) ^ fracDs.length)
    match rest₃ with
    | [] => some mantissa
    | 'e' :: tail => (parseExp tail).map (fun e => mantissa * (10 : ℚ) ^ e)
    | 'E' :: tail => (parseExp tail).map (fun e => mantissa * (10 : ℚ) ^ e)
    | _ => none

/-- ASCII whitespace stripped by Python's `float` before parsing. -/
def isPySpace (c : Char) : Bool :=
  c = ' ' ∨ c = '\t' ∨ c = '\n' ∨ c = '\r' ∨ c = '\x0b' ∨ c = '\x0c'

/-- Strip leading and trailing whitespace from a character list. -/
def trimChars (cs : List Char) : List Char :=
  ((cs.dropWhile isPySpace).reverse.dropWhile isPySpace).reverse

/-- Model of Python's `float(s)` on a string: surrounding whitespace is
stripped, then an optional sign and a decimal literal with optional fraction
and exponent.  Non-finite literals (`inf`, `nan`) are outside the rational
model and are treated as unconvertible. -/
def strToFloat? (s : String) : Option ℚ :=
  match trimChars s.data with
  | '+' :: rest => parseUnsigned rest
  | '-' :: rest => (parseUnsigned rest).map Neg.neg
  | rest => parseUnsigned rest

/-- Model of Python's `float(x)` applied to a decoded JSON value: numbers
pass through, booleans become 0/1, numeric strings are parsed
(`ValueError` otherwise), and null/arrays/objects raise `TypeError`. -/
def pyFloat (v : JValue) : Except PyErr ℚ :=
  match v with
  | .jnum q => .ok q
  | .jbool b => .ok (if b then 1 else 0)
  | .jstr s =>
    match strToFloat? s with
    | some q => .ok q
    | none => .error .valueError
  | _ => .error .typeError

/-- `float(dados_sensores[k])`: subscript, then float conversion. -/
def extractField (v : JValue) (k : String) : Except PyErr ℚ :=
  match getItem v k with
  | .ok w => pyFloat w
  | .error e => .error e

/-- The payload of an MQTT message, at the point where `json.loads` is
applied to the decoded string: either the string was not valid JSON
(`json.loads` raises `JSONDecodeError`) or it decoded to a JSON value. -/
inductive Payload where
  | invalid
  | parsed (v : JValue)

/-- The body of the `try` block of `on_message` in `data_ingestor.py`:
`json.loads`, then `float(...)` of the keys `temperatura`, `umidade`,
`luminosidade`, in that order. -/
def parseBody (p : Payload) : Except PyErr (ℚ × ℚ × ℚ) :=
  match p with
  | .invalid => .error .jsonDecodeError
  | .parsed v =>
    match extractField v "temperatura" with
    | .error e => .error e
    | .ok temp =>
      match extractField v "umidade" with
      | .error e => .error e
      | .ok umid =>
        match extractField v "luminosidade" with
        | .error e => .error e
        | .ok lum => .ok (temp, umid, lum)

/-! ### The PostgreSQL connection as transactional state -/

/-- A psycopg2 connection: the rows already committed to the table, in
insertion order, and the rows executed in the current (uncommitted)
transaction. -/
structure PgConn (ρ : Type) where
  committed : List ρ
  txPending : List ρ
deriving DecidableEq

/-- `cursor.execute(INSERT ...)`: the row joins the pending transaction. -/
def execInsert {ρ : Type} (conn : PgConn ρ) (r : ρ) : PgConn ρ :=
  { conn with txPending := conn.txPending ++ [r] }

/-- `conn.commit()`: pending rows become committed. -/
def commitTx {ρ : Type} (conn : PgConn ρ) : PgConn ρ :=
  { committed := conn.committed ++ conn.txPending, txPending := [] }

/-- `conn.rollback()`: pending rows are discarded. -/
def rollbackTx {ρ : Type} (conn : PgConn ρ) : PgConn ρ :=
  { conn with txPending := [] }

/-- Oracle for one call to `inserir_leitura`: the database driver either
succeeds, raises in `cursor.execute`, or raises in `conn.commit()`. -/
inductive InsertOutcome where
  | ok
  | execFails
  | commitFails
deriving DecidableEq

/-- Result of `inserir_leitura`: the connection afterwards, and whether the
`finally` block closed the cursor. -/
structure InsertResult (ρ : Type) where
  conn : PgConn ρ
  cursorClosed : Bool
deriving DecidableEq

/-- A row of the `leituras_sensores` table: (temperatura, umidade,
luminosidade). -/
abbrev Row3 := ℚ × ℚ × ℚ

/-- `inserir_leitura` of `data_ingestor.py`: execute the single-row INSERT
and commit; on any error roll the transaction back; close the cursor in the
`finally` block in every case. -/
def inserir_leitura (conn : PgConn Row3) (temperatura umidade luminosidade : ℚ)
    (outcome : InsertOutcome) : InsertResult Row3 :=
  match outcome with
  | .ok =>
    { conn := commitTx (execInsert conn (temperatura, umidade, luminosidade))
      cursorClosed := true }
  | .execFails =>
    { conn := rollbackTx conn, cursorClosed := true }
  | .commitFails =>
    { conn := rollbackTx (execInsert conn (temperatura, umidade, luminosidade))
      cursorClosed := true }

/-- Result of one `on_message` call: the connection afterwards and the rows
passed to `inserir_leitura` (each such call executes exactly one single-row
INSERT statement). -/
structure HandlerResult where
  conn : PgConn Row3
  insertCalls : List Row3
deriving DecidableEq

/-- `on_message` of `data_ingestor.py`: run the `try` body (`json.loads` and
the three `float(...)` extractions); on success insert the row; every
exception raised by the body is caught by one of the `except` clauses and the
message is ignored.  The function is total: the handler returns normally on
every payload. -/
def on_message (conn : PgConn Row3) (p : Payload) (outcome : InsertOutcome) :
    HandlerResult :=
  match parseBody p with
  | .ok (temp, umid, lum) =>
    { conn := (inserir_leitura conn temp umid lum outcome).conn
      insertCalls := [(temp, umid, lum)] }
  | .error _ => { conn := conn, insertCalls := [] }

/-- A sequence of deliveries to `on_message`, each with its database oracle:
the final connection and the concatenated insert calls, in delivery order. -/
def processMessages (conn : PgConn Row3) :
    List (Payload × InsertOutcome) → PgConn Row3 × List Row3
  | [] => (conn, [])
  | (p, o) :: rest =>
    let hr := on_message conn p o
    ((processMessages hr.conn rest).1, hr.insertCalls ++ (processMessages hr.conn rest).2)

namespace MainScript

/-- `inserir_leitura` of `main.py`: same transactional structure as the
bridge's, over the single-column table `leituras_luminosidade`. -/
def inserir_leitura (conn : PgConn ℚ) (valor : ℚ) (outcome : InsertOutcome) :
    InsertResult ℚ :=
  match outcome with
  | .ok => { conn := commitTx (execInsert conn valor), cursorClosed := true }
  | .execFails => { conn := rollbackTx conn, cursorClosed := true }
  | .commitFails =>
    { conn := rollbackTx (execInsert conn valor), cursorClosed := true }

/-- `on_message` of `main.py`: the whole payload string is converted with
`float(...)`; a `ValueError` (or any other exception) is caught and the
message ignored. -/
def on_message (conn : PgConn ℚ) (payload : String) (outcome : InsertOutcome) :
    PgConn ℚ × List ℚ :=
  match strToFloat? payload with
  | some valor => ((inserir_leitura conn valor outcome).conn, [valor])
  | none => (conn, [])

end MainScript

/-- The connection as it stands when the bridge starts: nothing committed,
no transaction pending. -/
def emptyConn : PgConn Row3 := { committed := [], txPending := [] }

/-! ### The dashboard (`dashboard.py`) -/

/-- A row of the `leituras_sensores` table as selected by `buscar_dados`:
`id`, `data_hora` (modelled as an integer timestamp), and the three sensor
readings. -/
structure DBRow where
  id : ℕ
  data_hora : ℤ
  temperatura : ℚ
  umidade : ℚ
  luminosidade : ℚ
deriving DecidableEq

/-- Insert a row into a list kept in descending `data_hora` order. -/
def insertDescDH (r : DBRow) : List DBRow → List DBRow
  | [] => [r]
  | x :: xs =>
    if x.data_hora ≤ r.data_hora then r :: x :: xs else x :: insertDescDH r xs

/-- `ORDER BY data_hora DESC`: the table contents sorted by `data_hora`,
most recent first (insertion sort; ties resolved arbitrarily, as in SQL). -/
def sortDescDH : List DBRow → List DBRow
  | [] => []
  | x :: xs => insertDescDH x (sortDescDH xs)

/-- Attach consecutive integer indices starting at `k` (a pandas
RangeIndex). -/
def withIndexFrom {α : Type} (k : ℕ) : List α → List (ℕ × α)
  | [] => []
  | x :: xs => (k, x) :: withIndexFrom (k + 1) xs

/-- A DataFrame with a fresh RangeIndex 0, 1, 2, … over the given rows
(what `pd.read_sql_query` and `reset_index(drop=True)` produce). -/
def withIndex {α : Type} (l : List α) : List (ℕ × α) := withIndexFrom 0 l

/-- `buscar_dados` of `dashboard.py`: with no engine, an empty DataFrame;
otherwise run `SELECT ... ORDER BY data_hora DESC LIMIT 200`, reverse the
result with `.iloc[::-1]` into chronological order and reset the index; any
exception raised by the query is caught and an empty DataFrame returned
(`queryFails` is the oracle for the database raising). -/
def buscar_dados (engine : Option (List DBRow)) (queryFails : Bool) :
    List (ℕ × DBRow) :=
  match engine with
  | none => []
  | some table =>
    if queryFails then []
    else
      let df := withIndex ((sortDescDH table).take 200)
      withIndex ((df.reverse).map Prod.snd)

/-- The feature columns handed to the Isolation Forest. -/
def features (r : DBRow) : ℚ × ℚ × ℚ := (r.temperatura, r.umidade, r.luminosidade)

/-- The off-the-shelf `IsolationForest` estimator, abstracted by its
documented contract (the source comments it: `predict` returns −1 for
anomalies and 1 for normal points, one label per input row). -/
structure IsolationForest where
  predict : List (ℚ × ℚ × ℚ) → List ℤ
  predict_length : ∀ xs, (predict xs).length = xs.length
  predict_valid : ∀ xs v, v ∈ predict xs → v = -1 ∨ v = 1

/-- `detectar_anomalias` of `dashboard.py`: with fewer than 2 rows every row
is labelled 1 (normal) and no model is fitted; otherwise the model is fitted
on the three feature columns and each row is paired with its predicted
label.  The boolean records whether `model.fit` ran. -/
def detectar_anomalias (model : IsolationForest) (df : List DBRow) :
    List (DBRow × ℤ) × Bool :=
  if df.length < 2 then (df.map (fun r => (r, 1)), false)
  else (df.zip (model.predict (df.map features)), true)

/-- The y-column value at index `i` (the temperature series). -/
def yAt (ys : List ℚ) (i : ℕ) : ℚ := ys.getD i 0

/-- Sum of the x-values 0, …, n−1. -/
def sumX (n : ℕ) : ℚ := ∑ i ∈ Finset.range n, (i : ℚ)

/-- Sum of the squares of the x-values. -/
def sumXX (n : ℕ) : ℚ := ∑ i ∈ Finset.range n, (i : ℚ) ^ 2

/-- Sum of the y-values. -/
def sumY (ys : List ℚ) : ℚ := ∑ i ∈ Finset.range ys.length, yAt ys i

/-- Sum of the products xᵢ·yᵢ. -/
def sumXY (ys : List ℚ) : ℚ := ∑ i ∈ Finset.range ys.length, (i : ℚ) * yAt ys i

/-- Determinant of the 2×2 normal-equations system for x = 0, …, n−1. -/
def lsqDet (n : ℕ) : ℚ := (n : ℚ) * sumXX n - (sumX n) ^ 2

/-- Least-squares slope fitted by `LinearRegression` on (index, temperature)
points. -/
def slope (ys : List ℚ) : ℚ :=
  ((ys.length : ℚ) * sumXY ys - sumX ys.length * sumY ys) / lsqDet ys.length

/-- Least-squares intercept fitted by `LinearRegression`. -/
def intercept (ys : List ℚ) : ℚ :=
  (sumY ys - slope ys * sumX ys.length) / (ys.length : ℚ)

/-- The fitted regression line evaluated at `x` (`model.predict([[x]])`). -/
def predictAt (ys : List ℚ) (x : ℚ) : ℚ := slope ys * x + intercept ys

/-- Total squared error of the line `y = a·x + b` on the points
(i, ysᵢ) for i = 0, …, n−1 — the quantity `LinearRegression.fit`
minimises. -/
def sqError (ys : List ℚ) (a b : ℚ) : ℚ :=
  ∑ i ∈ Finset.range ys.length, (yAt ys i - (a * (i : ℚ) + b)) ^ 2

/-- Residual of the fitted line at index `i`. -/
def resid (ys : List ℚ) (i : ℕ) : ℚ :=
  yAt ys i - (slope ys * (i : ℚ) + intercept ys)

/-- Round to the nearest integer, ties to even (the rounding used when
formatting with `%.2f`). -/
def roundHalfEven (x : ℚ) : ℤ :=
  let n := ⌊x⌋
  let f := x - (n : ℚ)
  if f < 1 / 2 then n
  else if 1 / 2 < f then n + 1
  else if n % 2 = 0 then n else n + 1

/-- Left-pad to two digits. -/
def padTwo (m : ℕ) : String := if m < 10 then "0" ++ Nat.repr m else Nat.repr m

/-- Decimal rendering of a rational to two decimal places, modelling the
format specifier `:.2f`. -/
def formatTwoDec (q : ℚ) : String :=
  let z := roundHalfEven (q * 100)
  if z < 0 then
    "-" ++ Nat.repr ((-z).toNat / 100) ++ "." ++ padTwo ((-z).toNat % 100)
  else
    Nat.repr (z.toNat / 100) ++ "." ++ padTwo (z.toNat % 100)

/-- `prever_proxima_temperatura` of `dashboard.py`: with fewer than 10 rows
return the fixed warning string; otherwise fit the least-squares line on
(index, temperature) and return its value at the next index `len(df)`,
formatted to two decimal places with the unit. -/
def prever_proxima_temperatura (temps : List ℚ) : String :=
  if temps.length < 10 then "Dados insuficientes para prever"
  else formatTwoDec (predictAt temps (temps.length : ℚ)) ++ " °C"

/-- The dashboard outputs produced by the update callback, projected to the
components the claims mention: the three figure titles, the header cell of
the statistics table, the anomaly-table rows, and the forecast card text. -/
structure DashOutputs where
  figTemperatura : String
  figUmidade : String
  figLuminosidade : String
  tabelaEstatisticas : String
  tabelaAnomalias : List DBRow
  cardPrevisao : String
deriving DecidableEq

/-- The placeholder outputs rendered when no data is available
(`Aguardando dados...`). -/
def aguardandoOutputs : DashOutputs :=
  { figTemperatura := "Aguardando dados..."
    figUmidade := "Aguardando dados..."
    figLuminosidade := "Aguardando dados..."
    tabelaEstatisticas := "Aguardando dados..."
    tabelaAnomalias := []
    cardPrevisao := "Aguardando dados..." }

/-- `atualizar_componentes` of `dashboard.py`: fetch the data; if the
DataFrame is empty render the placeholders; otherwise run the anomaly
detector, filter the rows labelled −1 for the anomaly table, compute the
temperature forecast, and render the populated components. -/
def atualizar_componentes (model : IsolationForest)
    (engine : Option (List DBRow)) (queryFails : Bool) : DashOutputs :=
  let df_raw := buscar_dados engine queryFails
  if df_raw.isEmpty then aguardandoOutputs
  else
    let df := detectar_anomalias model (df_raw.map Prod.snd)
    let df_anomalias := (df.1.filter (fun p => p.2 == -1)).map Prod.fst
    let previsao :=
      prever_proxima_temperatura ((df.1.map Prod.fst).map DBRow.temperatura)
    { figTemperatura := "Temperatura (°C)"
      figUmidade := "Umidade Relativa (%)"
      figLuminosidade := "Luminosidade (Lux)"
      tabelaEstatisticas := "Estatística"
      tabelaAnomalias := df_anomalias
      cardPrevisao := previsao }

/-- A concrete instantiation of the Isolation Forest contract (labels every
point normal), used to evaluate the dashboard model on concrete inputs. -/
def trivialForest : IsolationForest where
  predict xs := xs.map (fun _ => 1)
  predict_length xs := by simp
  predict_valid xs v hv := by
    rcases List.mem_map.mp hv with ⟨a, -, rfl⟩
    right
    rfl

end IoTPipeline

/-! ## Theorems -/

namespace IoTPipeline

theorem rollbackTx_eq_self {ρ : Type} (conn : PgConn ρ) (h : conn.txPending = []) :
    rollbackTx conn = conn := by
  cases conn
  simp only [PgConn.txPending] at h
  subst h
  rfl

theorem parseBody_parsed_ok {v : JValue} {t u l : ℚ}
    (ht : extractField v "temperatura" = .ok t)
    (hu : extractField v "umidade" = .ok u)
    (hl : extractField v "luminosidade" = .ok l) :
    parseBody (.parsed v) = .ok (t, u, l) := by
  simp [parseBody, ht, hu, hl, Except.bind]

/-- **C1.**  For every MQTT message whose payload is a valid JSON object
containing the keys `temperatura`, `umidade`, `luminosidade` with values
convertible to float, `on_message` parses the payload and persists exactly
those three numeric values into the table, passing them to the insert in
that order: when the database driver succeeds, the handler's only insert
call carries the row `(t, u, l)` and the committed table is extended by
exactly that row. -/
theorem c1_on_message_persists_parsed_fields
    (conn : PgConn Row3) (fields : List (String × JValue)) (t u l : ℚ)
    (htx : conn.txPending = [])
    (ht : extractField (.jobj fields) "temperatura" = .ok t)
    (hu : extractField (.jobj fields) "umidade" = .ok u)
    (hl : extractField (.jobj fields) "luminosidade" = .ok l) :
    on_message conn (.parsed (.jobj fields)) .ok =
      { conn := { committed := conn.committed ++ [(t, u, l)], txPending := [] }
        insertCalls := [(t, u, l)] } := by
  simp [on_message, parseBody_parsed_ok ht hu hl, inserir_leitura, commitTx, execInsert, htx]

/-- Witness for C1: a concrete well-formed JSON payload, processed from the
initial connection, commits exactly the row (25, 60, 300). -/
theorem c1_witness :
    extractField (.jobj [("temperatura", .jnum 25), ("umidade", .jnum 60),
        ("luminosidade", .jnum 300)]) "temperatura" = .ok 25 ∧
    on_message emptyConn (.parsed (.jobj [("temperatura", .jnum 25), ("umidade", .jnum 60),
        ("luminosidade", .jnum 300)])) .ok =
      { conn := { committed := [(25, 60, 300)], txPending := [] }
        insertCalls := [(25, 60, 300)] } := by
  constructor
  · rfl
  · exact c1_on_message_persists_parsed_fields emptyConn _ 25 60 300 rfl rfl rfl rfl

/-- **C2.**  In both `data_ingestor.py` and `main.py`, if executing the
single-row INSERT (or the commit) raises any error, `inserir_leitura` rolls
the transaction back and the committed database state is unchanged; the
cursor is closed whether the insert succeeds or fails; on success the row is
committed. -/
theorem c2_inserir_leitura_transactional
    (conn : PgConn Row3) (t u l : ℚ) (connV : PgConn ℚ) (v : ℚ)
    (o : InsertOutcome) (htx : conn.txPending = []) (htxV : connV.txPending = []) :
    ((inserir_leitura conn t u l o).cursorClosed = true ∧
      (o = .ok → (inserir_leitura conn t u l o).conn =
        { committed := conn.committed ++ [(t, u, l)], txPending := [] }) ∧
      (o ≠ .ok → (inserir_leitura conn t u l o).conn = conn)) ∧
    ((MainScript.inserir_leitura connV v o).cursorClosed = true ∧
      (o = .ok → (MainScript.inserir_leitura connV v o).conn =
        { committed := connV.committed ++ [v], txPending := [] }) ∧
      (o ≠ .ok → (MainScript.inserir_leitura connV v o).conn = connV)) := by
  obtain ⟨cc, ct⟩ := conn
  obtain ⟨mc, mt⟩ := connV
  simp only [PgConn.txPending] at htx htxV
  subst htx
  subst htxV
  cases o with
  | ok =>
    exact ⟨⟨rfl, fun _ => rfl, fun h => absurd rfl h⟩,
      ⟨rfl, fun _ => rfl, fun h => absurd rfl h⟩⟩
  | execFails =>
    refine ⟨⟨rfl, ?_, fun _ => rfl⟩, ⟨rfl, ?_, fun _ => rfl⟩⟩ <;>
      exact fun h => absurd h (by decide)
  | commitFails =>
    refine ⟨⟨rfl, ?_, fun _ => rfl⟩, ⟨rfl, ?_, fun _ => rfl⟩⟩ <;>
      exact fun h => absurd h (by decide)

/-- Witness for C2: on a concrete failing insert the connection is returned
unchanged with the cursor closed; on a concrete successful insert the row is
committed. -/
theorem c2_witness :
    (inserir_leitura emptyConn 1 2 3 .execFails).conn = emptyConn ∧
    (inserir_leitura emptyConn 1 2 3 .execFails).cursorClosed = true ∧
    (inserir_leitura emptyConn 1 2 3 .ok).conn =
      { committed := [(1, 2, 3)], txPending := [] } ∧
    (MainScript.inserir_leitura { committed := [], txPending := [] } 7 .commitFails).conn =
      { committed := [], txPending := [] } := by
  refine ⟨?_, ?_, ?_, ?_⟩
  · exact (c2_inserir_leitura_transactional emptyConn 1 2 3
      { committed := [], txPending := [] } 7 .execFails rfl rfl).1.2.2 (by decide)
  · exact (c2_inserir_leitura_transactional emptyConn 1 2 3
      { committed := [], txPending := [] } 7 .execFails rfl rfl).1.1
  · have h := (c2_inserir_leitura_transactional emptyConn 1 2 3
      { committed := [], txPending := [] } 7 .ok rfl rfl).1.2.1 rfl
    simpa [emptyConn] using h
  · exact (c2_inserir_leitura_transactional emptyConn 1 2 3
      { committed := [], txPending := [] } 7 .commitFails rfl rfl).2.2.2 (by decide)

/-- **C3.**  For every MQTT message whose payload fails the `try` body of the
handler — the payload is not valid JSON (`jsonDecodeError`), or the JSON is
missing one of the expected keys (`keyError`), or a value is not convertible
to float (`valueError`/`typeError`) — `on_message` ignores the message: the
connection is untouched, no insert is attempted, and the handler returns
normally (every such exception is caught by an `except` clause). -/
theorem c3_on_message_ignores_malformed
    (conn : PgConn Row3) (p : Payload) (o : InsertOutcome) (e : PyErr)
    (herr : parseBody p = .error e) :
    on_message conn p o = { conn := conn, insertCalls := [] } := by
  simp [on_message, herr]

/-- Witness for C3: a non-JSON payload, a JSON object missing keys, and a
JSON object with a non-numeric value are each ignored from the initial
connection. -/
theorem c3_witness :
    parseBody .invalid = .error .jsonDecodeError ∧
    on_message emptyConn .invalid .ok = { conn := emptyConn, insertCalls := [] } ∧
    on_message emptyConn (.parsed (.jobj [("temperatura", .jnum 25)])) .ok =
      { conn := emptyConn, insertCalls := [] } ∧
    on_message emptyConn (.parsed (.jobj [("temperatura", .jstr "abc"),
      ("umidade", .jnum 60), ("luminosidade", .jnum 300)])) .ok =
      { conn := emptyConn, insertCalls := [] } := by
  refine ⟨rfl, ?_, ?_, ?_⟩
  · exact c3_on_message_ignores_malformed emptyConn _ _ .jsonDecodeError rfl
  · exact c3_on_message_ignores_malformed emptyConn _ _ (.keyError "umidade") rfl
  · exact c3_on_message_ignores_malformed emptyConn _ _ .valueError (by decide)

theorem on_message_valid_ok (conn : PgConn Row3) (p : Payload) (r : Row3)
    (htx : conn.txPending = []) (h : parseBody p = .ok r) :
    on_message conn p .ok =
      { conn := { committed := conn.committed ++ [r], txPending := [] }
        insertCalls := [r] } := by
  obtain ⟨t, u, l⟩ := r
  simp [on_message, h, inserir_leitura, commitTx, execInsert, htx]

/-- **C4.**  The bridge deduplicates nothing and imposes no order beyond
arrival order: for every sequence of valid messages (each parsing to a row,
with the database succeeding), each message — including one whose payload
repeats an earlier one — produces its own insert call, and the rows are
committed in exactly the order the messages were delivered. -/
theorem c4_no_dedup_arrival_order
    (conn : PgConn Row3) (msgs : List (Payload × InsertOutcome)) (rows : List Row3)
    (htx : conn.txPending = [])
    (hall : List.Forall₂
      (fun m r => parseBody m.1 = .ok r ∧ m.2 = InsertOutcome.ok) msgs rows) :
    (processMessages conn msgs).1 =
      { committed := conn.committed ++ rows, txPending := [] } ∧
    (processMessages conn msgs).2 = rows := by
  induction hall generalizing conn with
  | nil =>
    obtain ⟨cc, ct⟩ := conn
    simp only [PgConn.txPending] at htx
    subst htx
    exact ⟨by simp [processMessages], rfl⟩
  | @cons m r ms rs hmr _ ih =>
    obtain ⟨p, o⟩ := m
    obtain ⟨hp, ho⟩ := hmr
    simp only at hp ho
    subst ho
    have h1 := on_message_valid_ok conn p r htx hp
    have ih' := ih { committed := conn.committed ++ [r], txPending := [] } rfl
    constructor
    · simp only [processMessages, h1]
      rw [ih'.1]
      simp
    · simp only [processMessages, h1]
      rw [ih'.2]
      rfl

/-- Witness for C4: two identical valid messages, delivered in sequence from
the initial connection, produce two inserts, committed in delivery order. -/
theorem c4_witness :
    (processMessages emptyConn
        [(.parsed (.jobj [("temperatura", .jnum 25), ("umidade", .jnum 60),
            ("luminosidade", .jnum 300)]), .ok),
         (.parsed (.jobj [("temperatura", .jnum 25), ("umidade", .jnum 60),
            ("luminosidade", .jnum 300)]), .ok)]).1 =
      { committed := [(25, 60, 300), (25, 60, 300)], txPending := [] } ∧
    (processMessages emptyConn
        [(.parsed (.jobj [("temperatura", .jnum 25), ("umidade", .jnum 60),
            ("luminosidade", .jnum 300)]), .ok),
         (.parsed (.jobj [("temperatura", .jnum 25), ("umidade", .jnum 60),
            ("luminosidade", .jnum 300)]), .ok)]).2 =
      [(25, 60, 300), (25, 60, 300)] := by
  exact c4_no_dedup_arrival_order emptyConn _ _ rfl
    (.cons ⟨rfl, rfl⟩ (.cons ⟨rfl, rfl⟩ .nil))

theorem withIndexFrom_map_snd {α : Type} (k : ℕ) (l : List α) :
    (withIndexFrom k l).map Prod.snd = l := by
  induction l generalizing k with
  | nil => rfl
  | cons x xs ih => simp [withIndexFrom, ih]

theorem withIndexFrom_map_fst {α : Type} (k : ℕ) (l : List α) :
    (withIndexFrom k l).map Prod.fst = List.range' k l.length := by
  induction l generalizing k with
  | nil => rfl
  | cons x xs ih => simp [withIndexFrom, ih, List.range']

theorem mem_withIndexFrom_snd {α : Type} {k : ℕ} {l : List α} {p : ℕ × α}
    (h : p ∈ withIndexFrom k l) : p.2 ∈ l := by
  induction l generalizing k with
  | nil => cases h
  | cons x xs ih =>
    rcases List.mem_cons.mp h with rfl | h'
    · simp
    · exact List.mem_cons_of_mem x (ih h')

theorem pairwise_withIndexFrom {α : Type} {R : α → α → Prop} (k : ℕ) {l : List α}
    (h : List.Pairwise R l) :
    List.Pairwise (fun a b => R a.2 b.2) (withIndexFrom k l) := by
  induction l generalizing k with
  | nil => exact .nil
  | cons x xs ih =>
    rcases List.pairwise_cons.mp h with ⟨hx, hxs⟩
    refine List.Pairwise.cons ?_ (ih (k + 1) hxs)
    intro b hb
    exact hx b.2 (mem_withIndexFrom_snd hb)

theorem withIndexFrom_length {α : Type} (k : ℕ) (l : List α) :
    (withIndexFrom k l).length = l.length := by
  induction l generalizing k with
  | nil => rfl
  | cons x xs ih => simp [withIndexFrom, ih]

theorem perm_insertDescDH (r : DBRow) (l : List DBRow) :
    List.Perm (insertDescDH r l) (r :: l) := by
  induction l with
  | nil => exact .refl _
  | cons x xs ih =>
    by_cases h : x.data_hora ≤ r.data_hora
    · simp [insertDescDH, h]
    · simp only [insertDescDH, h, if_neg, ite_false]
      exact ((ih.cons x).trans (List.Perm.swap r x xs))

theorem pairwise_insertDescDH (r : DBRow) {l : List DBRow}
    (h : List.Pairwise (fun a b => b.data_hora ≤ a.data_hora) l) :
    List.Pairwise (fun a b => b.data_hora ≤ a.data_hora) (insertDescDH r l) := by
  induction l with
  | nil => simp [insertDescDH]
  | cons x xs ih =>
    rcases List.pairwise_cons.mp h with ⟨hx, hxs⟩
    by_cases hle : x.data_hora ≤ r.data_hora
    · simp only [insertDescDH, hle, ite_true]
      refine List.Pairwise.cons ?_ h
      intro b hb
      rcases List.mem_cons.mp hb with rfl | hb'
      · exact hle
      · exact le_trans (hx b hb') hle
    · simp only [insertDescDH, hle, ite_false]
      refine List.Pairwise.cons ?_ (ih hxs)
      intro b hb
      have hmem := (perm_insertDescDH r xs).mem_iff.mp hb
      rcases List.mem_cons.mp hmem with rfl | hb'
      · exact le_of_not_le hle
      · exact hx b hb'

theorem sortDescDH_perm (l : List DBRow) : List.Perm (sortDescDH l) l := by
  induction l with
  | nil => exact .refl _
  | cons x xs ih => exact (perm_insertDescDH x (sortDescDH xs)).trans (ih.cons x)

theorem sortDescDH_pairwise (l : List DBRow) :
    List.Pairwise (fun a b => b.data_hora ≤ a.data_hora) (sortDescDH l) := by
  induction l with
  | nil => exact .nil
  | cons x xs ih => exact pairwise_insertDescDH x ih

/-- **C7.**  The dashboard's failure handling goes no further than catching
and printing: when the database query raises, `buscar_dados` catches the
exception and returns an empty DataFrame, and `atualizar_componentes` then
renders the `Aguardando dados...` placeholders (empty figures, placeholder
table and card, no anomaly rows) instead of propagating the error. -/
theorem c7_query_failure_renders_placeholders
    (model : IsolationForest) (table : List DBRow) :
    buscar_dados (some table) true = [] ∧
    atualizar_componentes model (some table) true = aguardandoOutputs :=
  ⟨rfl, rfl⟩

/-- Witness for C7: on a concrete non-empty table, a raising query still
yields the empty DataFrame and the placeholder components. -/
theorem c7_witness :
    buscar_dados (some [⟨1, 5, 25, 60, 300⟩]) true = [] ∧
    atualizar_componentes trivialForest (some [⟨1, 5, 25, 60, 300⟩]) true =
      aguardandoOutputs :=
  c7_query_failure_renders_placeholders trivialForest [⟨1, 5, 25, 60, 300⟩]

/-- **C9.**  `detectar_anomalias` returns its input extended with an
`anomalia` column: the rows are returned unchanged and in order, every label
is −1 or 1, and with fewer than 2 rows no model is fitted and every row is
labelled 1 (normal). -/
theorem c9_detectar_anomalias_labels
    (model : IsolationForest) (df : List DBRow) :
    ((detectar_anomalias model df).1.map Prod.fst = df) ∧
    (∀ p ∈ (detectar_anomalias model df).1, p.2 = -1 ∨ p.2 = 1) ∧
    (df.length < 2 →
      (detectar_anomalias model df).2 = false ∧
      ∀ p ∈ (detectar_anomalias model df).1, p.2 = 1) := by
  by_cases h : df.length < 2
  · refine ⟨?_, ?_, fun _ => ⟨by simp [detectar_anomalias, h], ?_⟩⟩
    · simp only [detectar_anomalias, h, ite_true, List.map_map]
      rw [show (Prod.fst ∘ fun r : DBRow => (r, (1 : ℤ))) = id from rfl, List.map_id]
    · intro p hp
      simp only [detectar_anomalias, h, ite_true] at hp
      rcases List.mem_map.mp hp with ⟨r, -, rfl⟩
      right
      rfl
    · intro p hp
      simp only [detectar_anomalias, h, ite_true] at hp
      rcases List.mem_map.mp hp with ⟨r, -, rfl⟩
      rfl
  · have hlen : (model.predict (df.map features)).length = df.length := by
      rw [model.predict_length, List.length_map]
    refine ⟨?_, ?_, fun hlt => absurd hlt h⟩
    · simp only [detectar_anomalias, h, ite_false]
      exact List.map_fst_zip df _ (le_of_eq hlen.symm)
    · intro p hp
      simp only [detectar_anomalias, h, ite_false] at hp
      exact model.predict_valid (df.map features) p.2 (List.of_mem_zip hp).2

/-- Witness for C9: on a one-row DataFrame the detector fits nothing and
labels the row normal. -/
theorem c9_witness :
    (detectar_anomalias trivialForest [⟨1, 5, 25, 60, 300⟩]).2 = false ∧
    ∀ p ∈ (detectar_anomalias trivialForest [⟨1, 5, 25, 60, 300⟩]).1, p.2 = 1 :=
  (c9_detectar_anomalias_labels trivialForest [⟨1, 5, 25, 60, 300⟩]).2.2 (by decide)

/-- **C5.**  Every invocation of `on_message` issues at most one single-row
INSERT: the list of rows passed to `inserir_leitura` (each of which executes
exactly one single-row INSERT statement) has length at most 1. -/
theorem c5_at_most_one_insert
    (conn : PgConn Row3) (p : Payload) (o : InsertOutcome) :
    (on_message conn p o).insertCalls.length ≤ 1 := by
  rcases h : parseBody p with _ | ⟨⟨t, u, l⟩⟩ <;> simp [on_message, h]

/-- Witness for C5: concrete invocations — one with a valid payload, one
with an invalid payload — each issue at most one insert. -/
theorem c5_witness :
    (on_message emptyConn (.parsed (.jobj [("temperatura", .jnum 1), ("umidade", .jnum 2),
      ("luminosidade", .jnum 3)])) .ok).insertCalls.length ≤ 1 ∧
    (on_message emptyConn .invalid .ok).insertCalls.length ≤ 1 :=
  ⟨c5_at_most_one_insert emptyConn _ .ok, c5_at_most_one_insert emptyConn .invalid .ok⟩

theorem buscar_dados_some_eq (table : List DBRow) :
    buscar_dados (some table) false =
      withIndex (((sortDescDH table).take 200).reverse) := by
  simp only [buscar_dados, Bool.false_eq_true, if_false, withIndex]
  rw [List.map_reverse, withIndexFrom_map_snd]

/-- **C10.**  `buscar_dados` returns at most 200 rows — the 200 most recent
readings by `data_hora` — reordered into chronological (ascending
`data_hora`) order with a freshly reset integer index 0, 1, 2, …, and
returns an empty DataFrame whenever the engine is `None`: the rows returned
together with some leftover `rest` form the whole table, and every leftover
row is no more recent than any returned row. -/
theorem c10_buscar_dados_chronological
    (engine : Option (List DBRow)) (queryFails : Bool) :
    (buscar_dados engine queryFails).length ≤ 200 ∧
    (buscar_dados engine queryFails).map Prod.fst =
      List.range (buscar_dados engine queryFails).length ∧
    List.Pairwise (fun a b => a.2.data_hora ≤ b.2.data_hora)
      (buscar_dados engine queryFails) ∧
    (engine = none → buscar_dados engine queryFails = []) ∧
    (∀ table, engine = some table → queryFails = false →
      ∃ rest, List.Perm (rest ++ (buscar_dados engine queryFails).map Prod.snd) table ∧
        ∀ x ∈ rest, ∀ y ∈ (buscar_dados engine queryFails).map Prod.snd,
          x.data_hora ≤ y.data_hora) := by
  rcases engine with _ | table
  · refine ⟨by simp [buscar_dados], rfl, .nil, fun _ => rfl, ?_⟩
    intro table h
    cases h
  · rcases queryFails with _ | _
    · rw [buscar_dados_some_eq table]
      have hdesc := sortDescDH_pairwise table
      have htake : List.Pairwise (fun a b => b.data_hora ≤ a.data_hora)
          ((sortDescDH table).take 200) :=
        hdesc.sublist (List.take_sublist 200 (sortDescDH table))
      refine ⟨?_, ?_, ?_, ?_, ?_⟩
      · rw [withIndex, withIndexFrom_length, List.length_reverse, List.length_take]
        exact min_le_left _ _
      · rw [withIndex, withIndexFrom_map_fst, withIndexFrom_length,
          List.range_eq_range']
      · exact pairwise_withIndexFrom 0 (List.pairwise_reverse.mpr htake)
      · intro h
        cases h
      · intro t ht _
        injection ht with ht
        subst ht
        refine ⟨(sortDescDH table).drop 200, ?_, ?_⟩
        · rw [withIndex, withIndexFrom_map_snd]
          have h1 : List.Perm
              ((sortDescDH table).drop 200 ++ ((sortDescDH table).take 200).reverse)
              ((sortDescDH table).drop 200 ++ (sortDescDH table).take 200) :=
            List.Perm.append_left _ (List.reverse_perm _)
          have h2 : List.Perm
              ((sortDescDH table).drop 200 ++ (sortDescDH table).take 200)
              ((sortDescDH table).take 200 ++ (sortDescDH table).drop 200) :=
            List.perm_append_comm
          have h3 : (sortDescDH table).take 200 ++ (sortDescDH table).drop 200 =
              sortDescDH table := List.take_append_drop 200 (sortDescDH table)
          have h4 : List.Perm
              ((sortDescDH table).take 200 ++ (sortDescDH table).drop 200)
              (sortDescDH table) := by rw [h3]
          exact ((h1.trans h2).trans h4).trans (sortDescDH_perm table)
        · intro x hx y hy
          rw [withIndex, withIndexFrom_map_snd, List.mem_reverse] at hy
          have hsplit := hdesc
          rw [← List.take_append_drop 200 (sortDescDH table)] at hsplit
          exact (List.pairwise_append.mp hsplit).2.2 y hy x hx
    · refine ⟨by simp [buscar_dados], rfl, .nil, ?_, ?_⟩
      · intro h
        cases h
      · intro t _ hf
        cases hf

/-- Witness for C10: an engine of `None` yields the empty DataFrame, and on
a concrete three-row table the query returns the rows in ascending
`data_hora` order with indices 0, 1, 2, exhausting the table. -/
theorem c10_witness :
    buscar_dados none false = [] ∧
    buscar_dados (some [⟨1, 10, 20, 50, 100⟩, ⟨2, 5, 21, 51, 101⟩, ⟨3, 20, 22, 52, 102⟩])
        false =
      [(0, ⟨2, 5, 21, 51, 101⟩), (1, ⟨1, 10, 20, 50, 100⟩), (2, ⟨3, 20, 22, 52, 102⟩)] ∧
    (∃ rest, List.Perm (rest ++
        (buscar_dados (some [⟨1, 10, 20, 50, 100⟩, ⟨2, 5, 21, 51, 101⟩,
          ⟨3, 20, 22, 52, 102⟩]) false).map Prod.snd)
        [⟨1, 10, 20, 50, 100⟩, ⟨2, 5, 21, 51, 101⟩, ⟨3, 20, 22, 52, 102⟩] ∧
      ∀ x ∈ rest, ∀ y ∈ (buscar_dados (some [⟨1, 10, 20, 50, 100⟩, ⟨2, 5, 21, 51, 101⟩,
          ⟨3, 20, 22, 52, 102⟩]) false).map Prod.snd, x.data_hora ≤ y.data_hora) := by
  refine ⟨?_, by decide, ?_⟩
  · exact (c10_buscar_dados_chronological none false).2.2.2.1 rfl
  · exact (c10_buscar_dados_chronological
      (some [⟨1, 10, 20, 50, 100⟩, ⟨2, 5, 21, 51, 101⟩, ⟨3, 20, 22, 52, 102⟩])
      false).2.2.2.2 _ rfl rfl

theorem two_mul_sumX (n : ℕ) : 2 * sumX n = (n : ℚ) ^ 2 - n := by
  induction n with
  | zero => simp [sumX]
  | succ m ih =>
    rw [sumX, Finset.sum_range_succ, ← sumX, mul_add, ih]
    push_cast
    ring

theorem six_mul_sumXX (n : ℕ) :
    6 * sumXX n = 2 * (n : ℚ) ^ 3 - 3 * (n : ℚ) ^ 2 + n := by
  induction n with
  | zero => simp [sumXX]
  | succ m ih =>
    rw [sumXX, Finset.sum_range_succ, ← sumXX, mul_add, ih]
    push_cast
    ring

theorem twelve_mul_lsqDet (n : ℕ) :
    12 * lsqDet n = (n : ℚ) ^ 2 * ((n : ℚ) ^ 2 - 1) := by
  have h1 := two_mul_sumX n
  have h2 := six_mul_sumXX n
  rw [lsqDet]
  linear_combination (2 * (n : ℚ)) * h2 +
    (-3 * (2 * sumX n + ((n : ℚ) ^ 2 - (n : ℚ)))) * h1

theorem lsqDet_pos {n : ℕ} (h : 2 ≤ n) : 0 < lsqDet n := by
  have h12 := twelve_mul_lsqDet n
  have hn : (2 : ℚ) ≤ (n : ℚ) := by exact_mod_cast h
  have h4 : (4 : ℚ) ≤ (n : ℚ) ^ 2 := by nlinarith [hn]
  have h12le : (12 : ℚ) ≤ (n : ℚ) ^ 2 * ((n : ℚ) ^ 2 - 1) := by nlinarith [h4]
  linarith [h12, h12le]

theorem sum_resid (ys : List ℚ) (hn : ys.length ≠ 0) :
    ∑ i ∈ Finset.range ys.length, resid ys i = 0 := by
  have hc : (ys.length : ℚ) ≠ 0 := Nat.cast_ne_zero.mpr hn
  have hsplit : ∑ i ∈ Finset.range ys.length, resid ys i =
      sumY ys - (slope ys * sumX ys.length + (ys.length : ℚ) * intercept ys) := by
    simp only [resid]
    rw [Finset.sum_sub_distrib, Finset.sum_add_distrib, ← Finset.mul_sum,
      Finset.sum_const, Finset.card_range, nsmul_eq_mul, ← sumX, ← sumY]
  have ht : (ys.length : ℚ) * intercept ys = sumY ys - slope ys * sumX ys.length := by
    rw [intercept]
    field_simp
  rw [hsplit, ht]
  ring

theorem sum_x_resid (ys : List ℚ) (h2 : 2 ≤ ys.length) :
    ∑ i ∈ Finset.range ys.length, (i : ℚ) * resid ys i = 0 := by
  have hn : ys.length ≠ 0 := by omega
  have hc : (ys.length : ℚ) ≠ 0 := Nat.cast_ne_zero.mpr hn
  have hD : lsqDet ys.length ≠ 0 := ne_of_gt (lsqDet_pos h2)
  have hD' : (ys.length : ℚ) * sumXX ys.length - (sumX ys.length) ^ 2 ≠ 0 := by
    rw [← lsqDet]
    exact hD
  have hsplit : ∑ i ∈ Finset.range ys.length, (i : ℚ) * resid ys i =
      sumXY ys - (slope ys * sumXX ys.length + intercept ys * sumX ys.length) := by
    have hpt : ∀ i ∈ Finset.range ys.length, (i : ℚ) * resid ys i =
        (i : ℚ) * yAt ys i - (slope ys * (i : ℚ) ^ 2 + intercept ys * (i : ℚ)) := by
      intro i _
      simp only [resid]
      ring
    rw [Finset.sum_congr rfl hpt, Finset.sum_sub_distrib, Finset.sum_add_distrib,
      ← Finset.mul_sum, ← Finset.mul_sum, ← sumXY, ← sumXX, ← sumX]
  rw [hsplit, intercept, slope, lsqDet]
  field_simp
  ring

theorem sqError_min (ys : List ℚ) (h2 : 2 ≤ ys.length) (a b : ℚ) :
    sqError ys (slope ys) (intercept ys) ≤ sqError ys a b := by
  have key : sqError ys a b = sqError ys (slope ys) (intercept ys)
      + (∑ i ∈ Finset.range ys.length,
          ((slope ys - a) * (i : ℚ) + (intercept ys - b)) ^ 2)
      + 2 * (slope ys - a) * (∑ i ∈ Finset.range ys.length, (i : ℚ) * resid ys i)
      + 2 * (intercept ys - b) * (∑ i ∈ Finset.range ys.length, resid ys i) := by
    rw [sqError, sqError, Finset.mul_sum, Finset.mul_sum, ← Finset.sum_add_distrib,
      ← Finset.sum_add_distrib, ← Finset.sum_add_distrib]
    apply Finset.sum_congr rfl
    intro i _
    simp only [resid]
    ring
  have hnn : 0 ≤ ∑ i ∈ Finset.range ys.length,
      ((slope ys - a) * (i : ℚ) + (intercept ys - b)) ^ 2 :=
    Finset.sum_nonneg fun i _ => sq_nonneg _
  rw [key, sum_x_resid ys h2, sum_resid ys (by omega)]
  linarith

/-- **C6.**  The temperature forecast is one-step: for every DataFrame with
at least 10 rows, `prever_proxima_temperatura` fits a least-squares line of
temperature against the row indices 0, …, n−1 (the fitted coefficients
minimise the squared error over all lines) and returns the fitted line
evaluated at index n — exactly one step past the last observed point —
formatted to two decimal places with the unit `°C`. -/
theorem c6_forecast_one_step (temps : List ℚ) (h10 : 10 ≤ temps.length) :
    ∃ a b : ℚ, (∀ a' b' : ℚ, sqError temps a b ≤ sqError temps a' b') ∧
      prever_proxima_temperatura temps =
        formatTwoDec (a * (temps.length : ℚ) + b) ++ " °C" := by
  have h2 : 2 ≤ temps.length := by omega
  refine ⟨slope temps, intercept temps, fun a' b' => sqError_min temps h2 a' b', ?_⟩
  rw [prever_proxima_temperatura, if_neg (by omega), predictAt]

/-- Witness for C6: on ten linearly increasing temperatures 20, …, 29 the
forecast is the continuation 30, rendered as the string produced one step
past the data. -/
theorem c6_witness :
    prever_proxima_temperatura [20, 21, 22, 23, 24, 25, 26, 27, 28, 29] = "30.00 °C" ∧
    ∃ a b : ℚ,
      (∀ a' b' : ℚ, sqError [20, 21, 22, 23, 24, 25, 26, 27, 28, 29] a b ≤
        sqError [20, 21, 22, 23, 24, 25, 26, 27, 28, 29] a' b') ∧
      prever_proxima_temperatura [20, 21, 22, 23, 24, 25, 26, 27, 28, 29] =
        formatTwoDec (a * (List.length [(20 : ℚ), 21, 22, 23, 24, 25, 26, 27, 28, 29] : ℚ)
          + b) ++ " °C" := by
  constructor
  · have hp : predictAt [20, 21, 22, 23, 24, 25, 26, 27, 28, 29]
        ((List.length [(20 : ℚ), 21, 22, 23, 24, 25, 26, 27, 28, 29] : ℕ) : ℚ) = 30 := by
      simp only [predictAt, slope, intercept, sumXY, sumY, sumX, sumXX, lsqDet, yAt,
        Finset.sum_range_succ, Finset.sum_range_zero, List.length_cons, List.length_nil,
        List.getD]
      norm_num
    have hf : roundHalfEven ((30 : ℚ) * 100) = 3000 := by
      simp only [roundHalfEven]
      norm_num
    rw [prever_proxima_temperatura, if_neg (by decide), hp]
    simp only [formatTwoDec, hf]
    decide
  · exact c6_forecast_one_step [20, 21, 22, 23, 24, 25, 26, 27, 28, 29] (by decide)

/-- **C8.**  `prever_proxima_temperatura` guards on the row count: with
fewer than 10 rows it returns the fixed string without fitting any model;
with 10 or more rows it returns the formatted numeric forecast string. -/
theorem c8_prever_length_guard (temps : List ℚ) :
    (temps.length < 10 →
      prever_proxima_temperatura temps = "Dados insuficientes para prever") ∧
    (10 ≤ temps.length →
      prever_proxima_temperatura temps =
        formatTwoDec (predictAt temps (temps.length : ℚ)) ++ " °C") := by
  constructor
  · intro h
    rw [prever_proxima_temperatura, if_pos h]
  · intro h
    rw [prever_proxima_temperatura, if_neg (by omega)]

/-- Witness for C8: a 3-row DataFrame yields the warning string; a 10-row
DataFrame yields a formatted forecast. -/
theorem c8_witness :
    prever_proxima_temperatura [25, 25, 25] = "Dados insuficientes para prever" ∧
    prever_proxima_temperatura [25, 25, 25, 25, 25, 25, 25, 25, 25, 25] =
      formatTwoDec (predictAt [25, 25, 25, 25, 25, 25, 25, 25, 25, 25]
        ((List.length [(25 : ℚ), 25, 25, 25, 25, 25, 25, 25, 25, 25] : ℕ) : ℚ)) ++ " °C" :=
  ⟨(c8_prever_length_guard [25, 25, 25]).1 (by decide),
   (c8_prever_length_guard [25, 25, 25, 25, 25, 25, 25, 25, 25, 25]).2 (by decide)⟩

end IoTPipeline
